import Mathlib

/-!
Verification development for the fusion-ens-server domain-format parser and
multi-chain address decoder (src/services/ensResolver.ts).

The TypeScript source is shallowly embedded: JavaScript strings become Lean
strings (treated as lists of characters), thrown exceptions become
`Except JsError`, and the blockchain registry/resolver collaborator becomes an
explicit environment record, following the collaborator contract of the
specification (section 6).  `ethers.namehash` is an injective hash of the
domain string; the environment is therefore keyed directly by the domain
string.  Third-party codec libraries (bitcoinjs-lib, @solana/web3.js, ethers
address utilities) are modelled by executable Lean implementations of the
encodings the source relies on (base58check, bech32 segwit, base58).
-/

/-! ## Basic character and list helpers -/

def hexVal (c : Char) : Option Nat :=
  if ('0' ≤ c ∧ c ≤ '9') then some (c.toNat - 48)
  else if ('a' ≤ c ∧ c ≤ 'f') then some (c.toNat - 87)
  else if ('A' ≤ c ∧ c ≤ 'F') then some (c.toNat - 55)
  else none

def hexDigit (n : Nat) : Char :=
  if n < 10 then Char.ofNat (48 + n) else Char.ofNat (87 + n)

/-- Lowercase hexadecimal rendering of a byte list (Node `buffer.toString('hex')`). -/
def hexOfBytes (bs : List Nat) : String :=
  String.mk (bs.foldr (fun b acc => hexDigit (b / 16 % 16) :: hexDigit (b % 16) :: acc) [])

/-- Node `Buffer.from(s, 'hex')`: decode two hex characters at a time,
stopping (and discarding the rest) at the first invalid or incomplete pair. -/
def bufferFromHexList : List Char → List Nat
  | c1 :: c2 :: rest =>
    match hexVal c1, hexVal c2 with
    | some h, some l => (16 * h + l) :: bufferFromHexList rest
    | _, _ => []
  | _ => []

def lowerStr (s : String) : String := String.mk (s.data.map Char.toLower)

def strDrop (n : Nat) (s : String) : String := String.mk (s.data.drop n)

def strLen (s : String) : Nat := s.data.length

/-- JavaScript `s.endsWith(suffix)`. -/
def hasSuffix (s suffix : List Char) : Bool :=
  suffix == s.drop (s.length - suffix.length)

/-- JavaScript `s.startsWith(pre)`. -/
def hasPrefixL (s pre : List Char) : Bool :=
  pre == s.take pre.length

/-- Split a character list at the LAST colon: `some (before, after)`,
or `none` when no colon occurs (JavaScript `lastIndexOf(':')` plus the two
`substring` calls of the source). -/
def splitAtLastColon : List Char → Option (List Char × List Char)
  | [] => none
  | c :: rest =>
    match splitAtLastColon rest with
    | some (pre, post) => some (c :: pre, post)
    | none => if c = ':' then some ([], rest) else none

/-- JavaScript `s.split('.')` (always returns a nonempty list of fields). -/
def splitDots : List Char → List (List Char)
  | [] => [[]]
  | c :: rest =>
    if c = '.' then [] :: splitDots rest
    else
      match splitDots rest with
      | [] => [[c]]
      | p :: ps => (c :: p) :: ps

/-- JavaScript `s.replace(pat, '')` for a plain (nonempty) string pattern:
remove the FIRST occurrence of `pat`, or return the input unchanged when the
pattern does not occur. -/
def removeFirst (pat : List Char) : List Char → List Char
  | [] => []
  | c :: rest =>
    if pat.isPrefixOf (c :: rest) then (c :: rest).drop pat.length
    else c :: removeFirst pat rest

/-! ## SHA-256 (for base58check checksums of legacy Bitcoin/Dogecoin addresses) -/

def add32 (a b : Nat) : Nat := (a + b) % 4294967296

def rotr32 (n x : Nat) : Nat := ((x >>> n) ||| (x <<< (32 - n))) % 4294967296

def shaCh (e f g : Nat) : Nat := (e &&& f) ^^^ ((e ^^^ 4294967295) &&& g)

def shaMaj (a b c : Nat) : Nat := (a &&& b) ^^^ (a &&& c) ^^^ (b &&& c)

def shaBigSigma0 (x : Nat) : Nat := rotr32 2 x ^^^ rotr32 13 x ^^^ rotr32 22 x

def shaBigSigma1 (x : Nat) : Nat := rotr32 6 x ^^^ rotr32 11 x ^^^ rotr32 25 x

def shaSmallSigma0 (x : Nat) : Nat := rotr32 7 x ^^^ rotr32 18 x ^^^ (x >>> 3)

def shaSmallSigma1 (x : Nat) : Nat := rotr32 17 x ^^^ rotr32 19 x ^^^ (x >>> 10)

/-- The 64 SHA-256 round constants of FIPS 180-4, written in decimal. -/
def shaK : List Nat :=
  [1116352408, 1899447441, 3049323471, 3921009573, 961987163,
   1508970993, 2453635748, 2870763221, 3624381080, 310598401,
   607225278, 1426881987, 1925078388, 2162078206, 2614888103,
   3248222580, 3835390401, 4022224774, 264347078, 604807628,
   770255983, 1249150122, 1555081692, 1996064986, 2554220882,
   2821834349, 2952996808, 3210313671, 3336571891, 3584528711,
   113926993, 338241895, 666307205, 773529912, 1294757372,
   1396182291, 1695183700, 1986661051, 2177026350, 2456956037,
   2730485921, 2820302411, 3259730800, 3345764771, 3516065817,
   3600352804, 4094571909, 275423344, 430227734, 506948616,
   659060556, 883997877, 958139571, 1322822218, 1537002063,
   1747873779, 1955562222, 2024104815, 2227730452, 2361852424,
   2428436474, 2756734187, 3204031479, 3329325298]

/-- The eight SHA-256 initial hash values, in decimal. -/
def shaH0 : List Nat :=
  [1779033703, 3144134277, 1013904242, 2773480762, 1359893119,
   2600822924, 528734635, 1541459225]

def sha256Pad (msg : List Nat) : List Nat :=
  let L := msg.length
  let k := (119 - L % 64) % 64
  msg ++ 0x80 :: List.replicate k 0 ++
    (List.range 8).map (fun i => ((8 * L) >>> (8 * (7 - i))) % 256)

def bytesToWords : List Nat → List Nat
  | b1 :: b2 :: b3 :: b4 :: rest =>
    (b1 * 16777216 + b2 * 65536 + b3 * 256 + b4) :: bytesToWords rest
  | _ => []

def shaSchedule (w16 : List Nat) : List Nat :=
  (List.range 48).foldl
    (fun w _ =>
      let n := w.length
      w ++ [add32 (add32 (shaSmallSigma1 (w.getD (n - 2) 0)) (w.getD (n - 7) 0))
                  (add32 (shaSmallSigma0 (w.getD (n - 15) 0)) (w.getD (n - 16) 0))])
    w16

def shaCompress (h : List Nat) (block : List Nat) : List Nat :=
  let w := shaSchedule (bytesToWords block)
  let st := (List.range 64).foldl
    (fun st i =>
      match st with
      | [a, b, c, d, e, f, g, hh] =>
        let t1 := add32 (add32 (add32 hh (shaBigSigma1 e))
                               (add32 (shaCh e f g) (shaK.getD i 0)))
                        (w.getD i 0)
        let t2 := add32 (shaBigSigma0 a) (shaMaj a b c)
        [add32 t1 t2, a, b, c, add32 d t1, e, f, g]
      | other => other)
    h
  (st.zip h).map (fun p => add32 p.1 p.2)

def chunks64 (fuel : Nat) (l : List Nat) : List (List Nat) :=
  match fuel, l with
  | 0, _ => []
  | _, [] => []
  | f + 1, l => l.take 64 :: chunks64 f (l.drop 64)

def sha256 (msg : List Nat) : List Nat :=
  let padded := sha256Pad msg
  let hs := (chunks64 padded.length padded).foldl shaCompress shaH0
  hs.foldr (fun wv acc =>
    (wv >>> 24) % 256 :: (wv >>> 16) % 256 :: (wv >>> 8) % 256 :: wv % 256 :: acc) []

/-! ## Base58 and base58check (bs58 / bitcoinjs address rendering) -/

def base58Chars : List Char :=
  String.data ("123456789ABCDEFGHJKLMNPQRSTUVWXYZabcdefghijkmnopqrstuvwxyz")

/-- Little-endian base-58 digits of `n`, fuel-driven so it stays structurally
recursive (the fuel is always at least the number of digits when called with
`n + 1`). -/
def toBase58Digits : Nat → Nat → List Nat
  | 0, _ => []
  | fuel + 1, n => if n = 0 then [] else n % 58 :: toBase58Digits fuel (n / 58)

def bytesToNat (bs : List Nat) : Nat := bs.foldl (fun acc b => acc * 256 + b) 0

/-- Base-58 encoding of a byte list: leading zero bytes become leading '1'
characters, the rest is the big-endian base-58 numeral. -/
def base58Encode (bs : List Nat) : String :=
  let zeros := (bs.takeWhile (fun b => b == 0)).length
  let n := bytesToNat bs
  let digits := (toBase58Digits (n + 1) n).reverse
  String.mk (List.replicate zeros '1' ++ digits.map (fun d => base58Chars.getD d '1'))

def base58CheckEncode (payload : List Nat) : String :=
  base58Encode (payload ++ (sha256 (sha256 payload)).take 4)

/-! ## Bech32 (bitcoinjs segwit v0 address rendering) -/

def bech32Charset : List Char := String.data ("qpzry9x8gf2tvdw0s3jn54khce6mua7l")

def bech32Gen : List Nat := [0x3b6a57b2, 0x26508e6d, 0x1ea119fa, 0x3d4233dd, 0x2a1462b3]

def bech32PolymodStep (chk v : Nat) : Nat :=
  let b := chk >>> 25
  let chk2 := ((chk % 33554432) <<< 5) ^^^ v
  (List.range 5).foldl
    (fun acc i => if (b >>> i) % 2 = 1 then acc ^^^ bech32Gen.getD i 0 else acc) chk2

def bech32Polymod (values : List Nat) : Nat := values.foldl bech32PolymodStep 1

def bech32HrpExpand (hrp : List Char) : List Nat :=
  hrp.map (fun c => c.toNat >>> 5) ++ 0 :: hrp.map (fun c => c.toNat % 32)

def bech32CreateChecksum (hrp : List Char) (data : List Nat) : List Nat :=
  let values := bech32HrpExpand hrp ++ data ++ [0, 0, 0, 0, 0, 0]
  let pm := bech32Polymod values ^^^ 1
  (List.range 6).map (fun i => (pm >>> (5 * (5 - i))) % 32)

def bech32Encode (hrp : List Char) (data : List Nat) : String :=
  String.mk (hrp ++ '1' :: (data ++ bech32CreateChecksum hrp data).map
    (fun d => bech32Charset.getD d '1'))

def byteBits (b : Nat) : List Nat :=
  [b / 128 % 2, b / 64 % 2, b / 32 % 2, b / 16 % 2, b / 8 % 2, b / 4 % 2, b / 2 % 2, b % 2]

/-- Regroup a bit list into 5-bit values, padding the final group with zero
bits on the right (BIP-173 `convertbits` with `pad = true`). -/
def group5 : List Nat → List Nat
  | [] => []
  | b1 :: b2 :: b3 :: b4 :: b5 :: rest => (16 * b1 + 8 * b2 + 4 * b3 + 2 * b4 + b5) :: group5 rest
  | rest => [(rest.foldl (fun a b => 2 * a + b) 0) * 2 ^ (5 - rest.length)]

def convert8to5 (bytes : List Nat) : List Nat := group5 (bytes.foldr (fun b acc => byteBits b ++ acc) [])

/-- Mainnet segwit v0 address of a witness program: bech32 with HRP bc and
data `[witness version 0] ++ convertbits(program)`. -/
def segwitV0Address (program : List Nat) : String :=
  bech32Encode (String.data ("bc")) (0 :: convert8to5 program)

/-! ## JavaScript exception model and third-party codec contracts -/

inductive JsError where
  | formatError
  | invalidDomain
  | networkNotSupported (network : String)
  | typeError
  | noEccLib
  | invalidHexAddress
deriving DecidableEq, Repr

/-- bitcoinjs `payments.p2pkh({hash})` (with the given address-version byte):
succeeds exactly for a 20-byte hash, rendering the base58check legacy
address; any other hash length raises a type error. -/
def p2pkhFromHash (version : Nat) (hash : List Nat) : Except JsError String :=
  if hash.length = 20 then Except.ok (base58CheckEncode (version :: hash))
  else Except.error JsError.typeError

/-- bitcoinjs `payments.p2pkh({output})`: the output must be the 25-byte
script `OP_DUP OP_HASH160 0x14 <20-byte hash> OP_EQUALVERIFY OP_CHECKSIG`;
otherwise a type error is raised. -/
def p2pkhFromOutput (version : Nat) (output : List Nat) : Except JsError String :=
  if output.length = 25 ∧ output.take 3 = [0x76, 0xa9, 0x14] ∧ output.drop 23 = [0x88, 0xac] then
    Except.ok (base58CheckEncode (version :: (output.drop 3).take 20))
  else Except.error JsError.typeError

/-- bitcoinjs `payments.p2wpkh({hash})`: succeeds exactly for a 20-byte
witness program, rendering the mainnet bech32 segwit v0 address. -/
def p2wpkhFromHash (hash : List Nat) : Except JsError String :=
  if hash.length = 20 then Except.ok (segwitV0Address hash)
  else Except.error JsError.typeError

/-- bitcoinjs `payments.p2tr({pubkey})` validates the x-only public key
through the ECC library, and the repository never calls
`bitcoin.initEccLib`, so this call always raises the "no ECC library"
error at runtime. -/
def p2trFromPubkey (_pubkey : List Nat) : Except JsError String :=
  Except.error JsError.noEccLib

/-- @solana/web3.js `new PublicKey(buffer).toBase58()` for a 32-byte buffer:
plain base-58 of the bytes (the constructor does not validate curve
membership, so it never fails on 32 bytes). -/
def solanaToBase58 (buffer : List Nat) : String := base58Encode buffer

def isHexChar (c : Char) : Bool := (hexVal c).isSome

/-- Modelled from the spec: third-party `ethers.getAddress` — "render using
the chain's standard checksummed hex address format".  Accepts a 0x-prefixed
40-hex-digit string and raises an invalid-address error for anything else.
The EIP-55 mixed-case checksum is abstracted: the rendering is lowercased and
checksum validation of mixed-case inputs is not modelled (no claim in this
development depends on that region of the input space). -/
def ethersGetAddress (s : String) : Except JsError String :=
  if hasPrefixL s.data (String.data ("0x")) ∧ s.data.length = 42 ∧ (s.data.drop 2).all isHexChar then
    Except.ok (lowerStr s)
  else Except.error JsError.invalidHexAddress

/-! ## Address byte decoder (`bytesToAddress`, ensResolver.ts lines 356-505) -/

/-- Bitcoin/Dogecoin mainnet address-version bytes used by the source: the
Bitcoin branch uses bitcoinjs defaults (0x00), the Dogecoin branch passes the
constant network record with `pubKeyHash: 0x1e`. -/
def btcVersion : Nat := 0x00

def dogeVersion : Nat := 0x1e

/-- Body of the inner `try` of the Bitcoin branch (lines 365-410): length
dispatch with a final plain-p2pkh retry on the fall-through paths.  A thrown
error propagates to the inner `catch`. -/
def btcTry (buffer : List Nat) : Except JsError String :=
  if buffer.length = 20 then p2pkhFromHash btcVersion buffer
  else if buffer.length = 22 then
    if buffer.getD 0 0 = 0 ∧ buffer.getD 1 0 = 20 ∧ (buffer.drop 2).length = 20 then
      p2wpkhFromHash (buffer.drop 2)
    else p2pkhFromHash btcVersion buffer
  else if buffer.length = 25 then p2pkhFromOutput btcVersion buffer
  else if buffer.length = 32 then p2trFromPubkey buffer
  else p2pkhFromHash btcVersion buffer

/-- Bitcoin branch: inner catch swallows any error and line 413 returns the
hex-tagged fallback. -/
def btcDecode (buffer : List Nat) : String :=
  match btcTry buffer with
  | Except.ok a => a
  | Except.error _ => String.append ("btc_") (hexOfBytes buffer)

/-- Solana branch (lines 417-434). -/
def solDecode (buffer : List Nat) : String :=
  if buffer.length = 32 then solanaToBase58 buffer
  else String.append ("sol_") (hexOfBytes buffer)

/-- Body of the inner `try` of the Dogecoin branch (lines 441-483). -/
def dogeTry (buffer : List Nat) : Except JsError String :=
  if buffer.length = 20 then p2pkhFromHash dogeVersion buffer
  else if buffer.length = 25 then p2pkhFromOutput dogeVersion buffer
  else p2pkhFromHash dogeVersion buffer

/-- Dogecoin branch with its inner catch and hex-tagged fallback (line 489). -/
def dogeDecode (buffer : List Nat) : String :=
  match dogeTry buffer with
  | Except.ok a => a
  | Except.error _ => String.append ("doge_") (hexOfBytes buffer)

def ethLikeTlds : List String := ["eth", "base", "arbi", "polygon", "avax", "bsc", "op"]

/-- The outer `try` body of `bytesToAddress`: per-chain dispatch.  Only the
EVM `ethers.getAddress` call can raise an error that escapes to the outer
`catch`; the btc/sol/doge branches catch their own errors. -/
def bytesToAddressCore (addressBytes : String) (tld : String) : Except JsError String :=
  if tld = "btc" then Except.ok (btcDecode (bufferFromHexList (addressBytes.data.drop 2)))
  else if tld = "sol" then Except.ok (solDecode (bufferFromHexList (addressBytes.data.drop 2)))
  else if tld = "doge" then Except.ok (dogeDecode (bufferFromHexList (addressBytes.data.drop 2)))
  else if tld ∈ ethLikeTlds then
    if 42 ≤ addressBytes.data.length then ethersGetAddress addressBytes
    else Except.ok (tld ++ "_" ++ addressBytes)
  else Except.ok (tld ++ "_" ++ addressBytes)

/-- `bytesToAddress` (lines 356-505): the outer `catch` (line 503) returns
the raw `addressBytes` string unchanged. -/
def bytesToAddress (addressBytes : String) (tld : String) : String :=
  match bytesToAddressCore addressBytes tld with
  | Except.ok s => s
  | Except.error _ => addressBytes

/-! ## Domain format parser (`parseDomainWithChain`, lines 73-112) -/

structure ParsedDomain where
  baseDomain : String
  targetChain : String
deriving DecidableEq, Repr

def textRecordTypes : List String :=
  ["x", "url", "github", "name", "bio", "description", "avatar", "header"]

def multiChainTLDs : List String :=
  ["btc", "sol", "doge", "xrp", "ltc", "ada", "base", "arbi", "polygon", "avax", "bsc",
   "op", "zora", "linea", "scroll", "mantle", "celo", "gnosis", "fantom"]

def ethSuffix : List Char := String.data (".eth")

def parseDomainWithChain (domainName : String) : Except JsError ParsedDomain :=
  match splitAtLastColon domainName.data with
  | some (pre, post) =>
    if hasSuffix pre ethSuffix then Except.ok ⟨String.mk pre, String.mk post⟩
    else Except.error JsError.formatError
  | none =>
    let tld := String.mk ((splitDots domainName.data).getLastD [])
    if tld = "" then Except.error JsError.invalidDomain
    else if tld ∈ textRecordTypes ∨ tld ∈ multiChainTLDs then
      Except.ok ⟨String.mk (removeFirst ('.' :: tld.data) domainName.data ++ ethSuffix), tld⟩
    else if tld = "eth" then Except.ok ⟨domainName, "eth"⟩
    else Except.ok ⟨domainName, "eth"⟩

/-! ## Coin-type table and text-record key map -/

def coinTypeMap : List (String × Nat) :=
  [("eth", 60), ("btc", 0), ("sol", 501), ("doge", 3), ("xrp", 144), ("ltc", 2),
   ("ada", 1815), ("base", 8453), ("arbi", 42161), ("polygon", 137), ("avax", 43114),
   ("bsc", 56), ("op", 10), ("zora", 7777777), ("linea", 59144), ("scroll", 534352),
   ("mantle", 5000), ("celo", 42220), ("gnosis", 100), ("fantom", 250)]

/-- `getCoinType` (lines 326-351): table lookup with 60 as the `??` default. -/
def getCoinType (tld : String) : Nat := (coinTypeMap.lookup tld).getD 60

def textRecordMap : List (String × String) :=
  [("x", "com.twitter"), ("url", "url"), ("github", "com.github"), ("name", "name"),
   ("bio", "description"), ("description", "description"), ("avatar", "avatar"),
   ("header", "header")]

/-! ## Resolution pipeline (`resolveName` and helpers, lines 118-321) -/

/-- The registry/resolver collaborator of the specification (section 6),
keyed by the canonical domain string (ethers.namehash is injective on
domains, so the node key is abstracted to the domain itself).  Round trips
are total here; connectivity failure of the provider is the `providerUp`
flag checked by the `getBlockNumber` probe of the source. -/
structure Env where
  providerUp : String → Bool
  resolverFor : String → String
  addrOf : String → String
  addrBytesOf : String → Nat → String
  textOf : String → String → String

def zeroAddress : String := "0x0000000000000000000000000000000000000000"

/-- The configured network set (constructor, lines 25-36): sepolia and
mainnet. -/
def networkNames : List String := ["sepolia", "mainnet"]

/-- `resolveEthDomain` (lines 161-198). -/
def resolveEthDomain (env : Env) (domainName : String) : Option String :=
  let resolverAddress := env.resolverFor domainName
  if resolverAddress = zeroAddress then none
  else
    let address := env.addrOf domainName
    if address = zeroAddress then none else some address

/-- `resolveMultiChainTLD` (lines 203-260), parameterized by the
byte-decoding function so that non-invocation of the decoder is expressible;
the source instantiates it with `bytesToAddress`. -/
def resolveMultiChainTLDWith (decode : String → String → String) (env : Env)
    (ethDomain targetChain : String) : Option String :=
  let resolverAddress := env.resolverFor ethDomain
  if resolverAddress = zeroAddress then none
  else
    let coinType := getCoinType targetChain
    if coinType = 60 then
      let address := env.addrOf ethDomain
      if address = zeroAddress then none else some address
    else
      let addressBytes := env.addrBytesOf ethDomain coinType
      if addressBytes = "" ∨ addressBytes = "0x" then none
      else some (decode addressBytes targetChain)

/-- `resolveTextRecord` (lines 265-321). -/
def resolveTextRecord (env : Env) (ethDomain textRecordType : String) : Option String :=
  let resolverAddress := env.resolverFor ethDomain
  if resolverAddress = zeroAddress then none
  else
    let ensTextKey := (textRecordMap.lookup textRecordType).getD textRecordType
    let textValue := env.textOf ethDomain ensTextKey
    if textValue = "" then none else some textValue

/-- The body of `resolveName` (lines 118-156) before its outer catch-all:
provider/config lookup (which throws for an unconfigured network), the
connection probe (whose failure returns null from the inner catch), parsing
(whose errors propagate), and routing. -/
def resolveNameCore (decode : String → String → String) (env : Env)
    (domainName network : String) : Except JsError (Option String) :=
  if network ∈ networkNames then
    if env.providerUp network then
      match parseDomainWithChain domainName with
      | Except.error e => Except.error e
      | Except.ok parsed =>
        if parsed.targetChain ∈ textRecordTypes then
          Except.ok (resolveTextRecord env parsed.baseDomain parsed.targetChain)
        else if parsed.targetChain ≠ "eth" then
          Except.ok (resolveMultiChainTLDWith decode env parsed.baseDomain parsed.targetChain)
        else
          Except.ok (resolveEthDomain env parsed.baseDomain)
    else Except.ok none
  else Except.error (JsError.networkNotSupported network)

/-- `resolveName` with the decoder as a parameter: the outer catch-all
(lines 152-155) turns every thrown error into null. -/
def resolveNameWith (decode : String → String → String) (env : Env)
    (domainName network : String) : Option String :=
  match resolveNameCore decode env domainName network with
  | Except.ok r => r
  | Except.error _ => none

/-- `resolveName` as the source runs it. -/
def resolveName (env : Env) (domainName network : String) : Option String :=
  resolveNameWith bytesToAddress env domainName network

/-! ## Reverse-resolution key derivation (`reverseResolve`, line 570) -/

/-- The name whose namehash is looked up for reverse resolution:
`address.slice(2).toLowerCase()` with `.addr.reverse` appended. -/
def reverseNode (address : String) : String :=
  lowerStr (strDrop 2 address) ++ ".addr.reverse"

/-- Formalisation of the specification's words for the reverse key (section
4.5): "strips the 0x prefix, lowercases, and appends the fixed
reverse-registry suffix domain (.addr.reverse)". -/
def reverseKeySpec (address : String) : String :=
  lowerStr (if hasPrefixL address.data (String.data ("0x")) then strDrop 2 address else address)
    ++ ".addr.reverse"

/-! ## Sample environments for concrete runs -/

def sampleEnv : Env :=
  { providerUp := fun _ => true
    resolverFor := fun _ => "0x1111111111111111111111111111111111111111"
    addrOf := fun _ => "0x2222222222222222222222222222222222222222"
    addrBytesOf := fun _ _ => "0x00"
    textOf := fun _ _ => "" }

def emptyBytesEnv : Env :=
  { providerUp := fun _ => true
    resolverFor := fun _ => "0x1111111111111111111111111111111111111111"
    addrOf := fun _ => "0x2222222222222222222222222222222222222222"
    addrBytesOf := fun _ _ => "0x"
    textOf := fun _ _ => "" }

/-! ## Helper lemmas -/

theorem strData_append (s t : String) : (s ++ t).data = s.data ++ t.data := by
  cases s
  cases t
  rfl

def hex0x (bs : List Nat) : String := String.append ("0x") (hexOfBytes bs)

theorem hex0x_drop2 (bs : List Nat) : (hex0x bs).data.drop 2 = (hexOfBytes bs).data := rfl

theorem lookup_eq_none_of_not_mem {β : Type} (l : List (String × β)) (s : String)
    (h : s ∉ l.map Prod.fst) : l.lookup s = none := by
  induction l with
  | nil => rfl
  | cons kv rest ih =>
    simp only [List.map_cons, List.mem_cons, not_or] at h
    have hne : (s == kv.1) = false := beq_eq_false_iff_ne.mpr h.1
    simp [List.lookup, hne, ih h.2]

theorem splitAtLastColon_eq_none (l : List Char) (h : ∀ c ∈ l, c ≠ ':') :
    splitAtLastColon l = none := by
  induction l with
  | nil => rfl
  | cons c rest ih =>
    have hr := ih (fun x hx => h x (List.mem_cons_of_mem _ hx))
    have hc : c ≠ ':' := h c (List.mem_cons_self _ _)
    simp [splitAtLastColon, hr, hc]

theorem splitAtLastColon_append (xs ts : List Char) (h : ∀ c ∈ ts, c ≠ ':') :
    splitAtLastColon (xs ++ ':' :: ts) = some (xs, ts) := by
  induction xs with
  | nil => simp [splitAtLastColon, splitAtLastColon_eq_none ts h]
  | cons c rest ih => simp [splitAtLastColon, ih]

theorem hasSuffix_append_self (xs l : List Char) : hasSuffix (xs ++ l) l = true := by
  unfold hasSuffix
  have h1 : (xs ++ l).length - l.length = xs.length := by simp [List.length_append]
  rw [h1, List.drop_left]
  exact beq_self_eq_true l

theorem hexVal_hexDigit : ∀ n : Nat, n < 16 → hexVal (hexDigit n) = some n := by decide

theorem bufferFromHex_hexOfBytes (bs : List Nat) (h : ∀ b ∈ bs, b < 256) :
    bufferFromHexList (hexOfBytes bs).data = bs := by
  induction bs with
  | nil => rfl
  | cons b rest ih =>
    have hb : b < 256 := h b (List.mem_cons_self _ _)
    have hr := ih (fun x hx => h x (List.mem_cons_of_mem _ hx))
    have hdiv : b / 16 < 16 := Nat.div_lt_of_lt_mul (by omega)
    have h1 : b / 16 % 16 = b / 16 := Nat.mod_eq_of_lt hdiv
    have hv1 : hexVal (hexDigit (b / 16)) = some (b / 16) := hexVal_hexDigit _ hdiv
    have hv2 : hexVal (hexDigit (b % 16)) = some (b % 16) :=
      hexVal_hexDigit _ (Nat.mod_lt _ (by omega))
    simp only [hexOfBytes, List.foldr_cons] at hr ⊢
    simp [bufferFromHexList, h1, hv1, hv2, hr, Nat.div_add_mod]

theorem toBase58Digits_lt (fuel : Nat) : ∀ n d, d ∈ toBase58Digits fuel n → d < 58 := by
  induction fuel with
  | zero => intro n d hd; simp [toBase58Digits] at hd
  | succ f ih =>
    intro n d hd
    by_cases hn : n = 0
    · simp [toBase58Digits, hn] at hd
    · simp [toBase58Digits, hn] at hd
      rcases hd with hd | hd
      · omega
      · exact ih _ _ hd

theorem base58Chars_getD_mem : ∀ d : Nat, d < 58 → base58Chars.getD d '1' ∈ base58Chars := by
  decide

theorem one_mem_base58Chars : '1' ∈ base58Chars := by decide

theorem base58Encode_mem_alphabet (bs : List Nat) :
    ∀ c ∈ (base58Encode bs).data, c ∈ base58Chars := by
  intro c hc
  simp only [base58Encode] at hc
  rcases List.mem_append.1 hc with hc | hc
  · rw [List.eq_of_mem_replicate hc]
    exact one_mem_base58Chars
  · rcases List.mem_map.1 hc with ⟨d, hd, rfl⟩
    exact base58Chars_getD_mem d (toBase58Digits_lt _ _ _ (List.mem_reverse.1 hd))

theorem base58Chars_no_confusables :
    ∀ c ∈ base58Chars, c ≠ '0' ∧ c ≠ 'O' ∧ c ≠ 'I' ∧ c ≠ 'l' := by decide

theorem bytesToAddressCore_btc (b : String) :
    bytesToAddressCore b ("btc") = Except.ok (btcDecode (bufferFromHexList (b.data.drop 2))) := rfl

theorem bytesToAddressCore_sol (b : String) :
    bytesToAddressCore b ("sol") = Except.ok (solDecode (bufferFromHexList (b.data.drop 2))) := rfl

theorem bytesToAddress_btc_eval (bs : List Nat) (h : ∀ b ∈ bs, b < 256) :
    bytesToAddress (hex0x bs) ("btc") = btcDecode bs := by
  simp [bytesToAddress, bytesToAddressCore_btc, hex0x_drop2, bufferFromHex_hexOfBytes bs h]

theorem bytesToAddress_sol_eval (bs : List Nat) (h : ∀ b ∈ bs, b < 256) :
    bytesToAddress (hex0x bs) ("sol") = solDecode bs := by
  simp [bytesToAddress, bytesToAddressCore_sol, hex0x_drop2, bufferFromHex_hexOfBytes bs h]

theorem string_mk_data (s : String) : String.mk s.data = s := by
  cases s
  rfl

/-! ## Claim C3 -/

/-- C3: the claim says the legacy rewrite strips exactly the trailing ".btc"
suffix for all labels, including labels containing ".btc" as a substring.
The code uses JavaScript `replace` with a string pattern, which removes the
FIRST occurrence: on input "x.btcy.btc" (label "x.btcy") the inner ".btc" is
removed and the trailing TLD is kept, producing base domain "xy.btc.eth"
instead of the claimed "x.btcy.eth".  This evaluation exhibits the
divergence at that failing input. -/
theorem legacyRewriteRemovesFirstOccurrence :
    parseDomainWithChain ("x.btcy.btc") = Except.ok ⟨"xy.btc.eth", "btc"⟩ ∧
      ("xy.btc.eth" : String) ≠ "x.btcy.eth" := ⟨rfl, by decide⟩

/-! ## Claim C4 -/

/-- C4 counterexample: the table keys are the short codes of the source
('arbi', 'avax', 'op'), so the long names of the claim fall through to the
default 60 instead of their claimed coin types. -/
theorem coinTypeLongNamesDiverge :
    getCoinType ("arbitrum") ≠ 42161 ∧ getCoinType ("avalanche") ≠ 43114 ∧
      getCoinType ("optimism") ≠ 10 := by decide

/-- C4 (amended): getCoinType is total and matches the code's static table —
whose keys are the short codes 'arbi' (42161), 'avax' (43114), 'op' (10),
etc., not the long names 'arbitrum', 'avalanche', 'optimism' of the claim —
and returns 60 for every string that is not a key of the table. -/
theorem coinTypeTableActual :
    (getCoinType ("eth") = 60 ∧ getCoinType ("btc") = 0 ∧ getCoinType ("sol") = 501 ∧
     getCoinType ("doge") = 3 ∧ getCoinType ("xrp") = 144 ∧ getCoinType ("ltc") = 2 ∧
     getCoinType ("ada") = 1815 ∧ getCoinType ("base") = 8453 ∧ getCoinType ("arbi") = 42161 ∧
     getCoinType ("polygon") = 137 ∧ getCoinType ("avax") = 43114 ∧ getCoinType ("bsc") = 56 ∧
     getCoinType ("op") = 10 ∧ getCoinType ("zora") = 7777777 ∧ getCoinType ("linea") = 59144 ∧
     getCoinType ("scroll") = 534352 ∧ getCoinType ("mantle") = 5000 ∧
     getCoinType ("celo") = 42220 ∧ getCoinType ("gnosis") = 100 ∧ getCoinType ("fantom") = 250) ∧
    ∀ s : String, s ∉ coinTypeMap.map Prod.fst → getCoinType s = 60 := by
  refine ⟨by decide, ?_⟩
  intro s hs
  unfold getCoinType
  rw [lookup_eq_none_of_not_mem coinTypeMap s hs]
  rfl

/-- C4 witness: a table entry and the default at a concrete non-key. -/
theorem coinTypeTableActualWitness :
    getCoinType ("btc") = 0 ∧ getCoinType ("unknownchain") = 60 :=
  ⟨coinTypeTableActual.1.2.1, coinTypeTableActual.2 ("unknownchain") (by decide)⟩

/-! ## Claim C5 -/

/-- C5 counterexample: for the unconfigured network "holesky", getProvider's
unsupported-network error is thrown inside resolveName's try-block, but the
catch-all swallows it and resolveName returns null to the caller rather
than raising. -/
theorem unsupportedNetworkNotRaised :
    resolveNameCore bytesToAddress sampleEnv ("carol.eth") ("holesky")
        = Except.error (JsError.networkNotSupported ("holesky")) ∧
      resolveName sampleEnv ("carol.eth") ("holesky") = none := ⟨rfl, rfl⟩

/-- C5 (amended): for every domain input and every network outside the
configured set, getProvider raises the unsupported-network error, but
resolveName's catch-all catches it and returns null — the hard fault is
swallowed, indistinguishable from "not found", not reported upward. -/
theorem unsupportedNetworkSwallowed (env : Env) (domainName network : String)
    (h : network ∉ networkNames) :
    resolveNameCore bytesToAddress env domainName network
        = Except.error (JsError.networkNotSupported network) ∧
      resolveName env domainName network = none := by
  have hc : resolveNameCore bytesToAddress env domainName network
      = Except.error (JsError.networkNotSupported network) := by
    unfold resolveNameCore
    rw [if_neg h]
  exact ⟨hc, by simp [resolveName, resolveNameWith, hc]⟩

/-- C5 witness: the amended theorem at a concrete unconfigured network. -/
theorem unsupportedNetworkSwallowedWitness :
    resolveName sampleEnv ("dora.eth") ("goerli") = none :=
  (unsupportedNetworkSwallowed sampleEnv ("dora.eth") ("goerli") (by decide)).2

/-! ## Claim C9 -/

/-- C9: the reverse-resolution lookup name is the pure string transform of
the claim — for every address starting with "0x", the code's derived name
(drop the first two characters, lowercase, append ".addr.reverse") equals
the specification's description (strip the 0x prefix, lowercase, append
".addr.reverse"). -/
theorem reverseKeyMatchesSpec (address : String)
    (h : hasPrefixL address.data (String.data ("0x")) = true) :
    reverseNode address = reverseKeySpec address := by
  unfold reverseNode reverseKeySpec
  rw [if_pos h]

/-- C9 witness: the derivation at a concrete mixed-case address. -/
theorem reverseKeyMatchesSpecWitness :
    reverseNode ("0xAbC1") = reverseKeySpec ("0xAbC1") :=
  reverseKeyMatchesSpec ("0xAbC1") (by decide)

/-! ## Claim C2 -/

def badEvmBytes : String := String.mk ('0' :: 'x' :: List.replicate 40 'Z')

/-- C2 counterexample: a 42-character non-hex byte string for the 'eth'
branch makes ethers.getAddress throw; the error escapes to the OUTER catch
of bytesToAddress, which returns the raw input string unchanged — an
untagged value, not the claimed hex-tagged fallback "eth_...". -/
theorem decodeErrorReturnsUntagged :
    bytesToAddressCore badEvmBytes ("eth") = Except.error JsError.invalidHexAddress ∧
      bytesToAddress badEvmBytes ("eth") = badEvmBytes ∧
      hasPrefixL (bytesToAddress badEvmBytes ("eth")).data (String.data ("eth_")) = false :=
  ⟨rfl, rfl, rfl⟩

/-- C2 (amended): bytesToAddress is total — it always returns a string and
never propagates an exception — and for every input either the per-chain
dispatch succeeds (producing a decoded address or its own hex-tagged
fallback), or the error reaches the outermost catch, which happens only in
the EVM branch (tld among eth/base/arbi/polygon/avax/bsc/op with input
length at least 42) and then returns the RAW input byte-string untagged. -/
theorem bytesToAddressTotalOuterFallback (b t : String) :
    (∃ s, bytesToAddressCore b t = Except.ok s ∧ bytesToAddress b t = s) ∨
      (t ∈ ethLikeTlds ∧ 42 ≤ b.data.length ∧ bytesToAddress b t = b) := by
  cases hcore : bytesToAddressCore b t with
  | ok s => exact Or.inl ⟨s, rfl, by simp [bytesToAddress, hcore]⟩
  | error e =>
    have hres : bytesToAddress b t = b := by simp [bytesToAddress, hcore]
    have hinfo : t ∈ ethLikeTlds ∧ 42 ≤ b.data.length := by
      unfold bytesToAddressCore at hcore
      split at hcore
      · simp at hcore
      · split at hcore
        · simp at hcore
        · split at hcore
          · simp at hcore
          · split at hcore
            · split at hcore
              · rename_i hmem hlen
                exact ⟨hmem, hlen⟩
              · simp at hcore
            · simp at hcore
    exact Or.inr ⟨hinfo.1, hinfo.2, hres⟩

/-! ## Claim C1 -/

/-- C1 (amended): when the input contains ':' and the base portion before
the last ':' does not end with ".eth", parseDomainWithChain raises the
FormatError — but resolveName's catch-all (lines 152-155) catches it and
returns null for every environment and every network: the format failure is
swallowed inside resolveName, not propagated to the caller. -/
theorem formatFailureSwallowed (s : String) (pre post : List Char)
    (hsplit : splitAtLastColon s.data = some (pre, post))
    (hsuf : hasSuffix pre ethSuffix = false) :
    parseDomainWithChain s = Except.error JsError.formatError ∧
      ∀ (env : Env) (network : String), resolveName env s network = none := by
  have hp : parseDomainWithChain s = Except.error JsError.formatError := by
    unfold parseDomainWithChain
    rw [hsplit]
    simp [hsuf]
  refine ⟨hp, ?_⟩
  intro env network
  by_cases hn : network ∈ networkNames
  · cases hu : env.providerUp network
    · simp [resolveName, resolveNameWith, resolveNameCore, hn, hu]
    · simp [resolveName, resolveNameWith, resolveNameCore, hn, hu, hp]
  · simp [resolveName, resolveNameWith, resolveNameCore, hn]

/-- C1 witness: the amended theorem applied at a concrete malformed input
on a configured network. -/
theorem formatFailureSwallowedWitness :
    parseDomainWithChain ("alice:btc") = Except.error JsError.formatError ∧
      resolveName sampleEnv ("alice:btc") ("mainnet") = none := by
  have h := formatFailureSwallowed ("alice:btc") (String.data ("alice")) (String.data ("btc"))
    rfl rfl
  exact ⟨h.1, h.2 sampleEnv ("mainnet")⟩

/-- C1 counterexample: at the concrete malformed input "bob:btc" on the
configured network "mainnet", the parse does fail with the format error,
yet resolveName returns null — it does not propagate the failure. -/
theorem formatFailureNotPropagated :
    parseDomainWithChain ("bob:btc") = Except.error JsError.formatError ∧
      resolveName sampleEnv ("bob:btc") ("mainnet") = none := ⟨rfl, rfl⟩

/-! ## Claim C8 -/

/-- C8: when the multi-chain registry lookup returns empty bytes ("0x" or
the empty, falsy string), the multi-chain resolution and the overall
resolveName result are null — never an error — and this holds for EVERY
decode function f, so the address byte decoder is never invoked on that
value. -/
theorem emptyMultiChainBytesYieldNull (f : String → String → String) (env : Env)
    (domainName network : String) (p : ParsedDomain)
    (hp : parseDomainWithChain domainName = Except.ok p)
    (ht : p.targetChain ∉ textRecordTypes)
    (he : p.targetChain ≠ "eth")
    (hc : getCoinType p.targetChain ≠ 60)
    (hb : env.addrBytesOf p.baseDomain (getCoinType p.targetChain) = "0x" ∨
          env.addrBytesOf p.baseDomain (getCoinType p.targetChain) = "") :
    resolveMultiChainTLDWith f env p.baseDomain p.targetChain = none ∧
      resolveNameWith f env domainName network = none := by
  have hmc : resolveMultiChainTLDWith f env p.baseDomain p.targetChain = none := by
    unfold resolveMultiChainTLDWith
    by_cases hz : env.resolverFor p.baseDomain = zeroAddress
    · simp [hz]
    · have hcond : env.addrBytesOf p.baseDomain (getCoinType p.targetChain) = "" ∨
          env.addrBytesOf p.baseDomain (getCoinType p.targetChain) = "0x" := by
        rcases hb with hb | hb
        · exact Or.inr hb
        · exact Or.inl hb
      simp [hz, hc, hcond]
  refine ⟨hmc, ?_⟩
  by_cases hn : network ∈ networkNames
  · cases hu : env.providerUp network
    · simp [resolveNameWith, resolveNameCore, hn, hu]
    · simp [resolveNameWith, resolveNameCore, hn, hu, hp, ht, he, hmc]
  · simp [resolveNameWith, resolveNameCore, hn]

/-- C8 witness: concrete run where the registry returns "0x": the overall
result is null with a decoder that would be visibly wrong if consulted. -/
theorem emptyMultiChainBytesYieldNullWitness :
    resolveNameWith (fun _ _ => "decoded") emptyBytesEnv ("bob.eth:btc") ("mainnet") = none :=
  (emptyMultiChainBytesYieldNull (fun _ _ => "decoded") emptyBytesEnv ("bob.eth:btc")
      ("mainnet") ⟨"bob.eth", "btc"⟩ rfl (by decide) (by decide) (by decide) (Or.inl rfl)).2

/-! ## Claim C6 -/

/-- C6: for every 22-byte buffer decoded for chain code "btc": with witness
version byte 0 and pushed length byte 20, the decoder returns the segwit v0
P2WPKH address of the remaining 20 bytes; with a nonzero witness version
byte it falls through to the plain 20-byte legacy p2pkh retry, which fails
on a 22-byte buffer, landing in the hex-tagged fallback — no exception in
either case. -/
theorem btc22ByteDecode (bs : List Nat) (hlen : bs.length = 22)
    (hbytes : ∀ b ∈ bs, b < 256) :
    (bs.getD 0 0 = 0 ∧ bs.getD 1 0 = 20 →
        bytesToAddress (hex0x bs) ("btc") = segwitV0Address (bs.drop 2)) ∧
    (bs.getD 0 0 ≠ 0 →
        bytesToAddress (hex0x bs) ("btc") = String.append ("btc_") (hexOfBytes bs)) := by
  have heval := bytesToAddress_btc_eval bs hbytes
  have h20 : ¬bs.length = 20 := by omega
  have hdrop : (bs.drop 2).length = 20 := by simp [List.length_drop, hlen]
  constructor
  · rintro ⟨h0, h1⟩
    rw [heval]
    unfold btcDecode btcTry
    rw [if_neg h20, if_pos hlen, if_pos ⟨h0, h1, hdrop⟩]
    unfold p2wpkhFromHash
    rw [if_pos hdrop]
  · intro h0
    rw [heval]
    have hcond : ¬(bs.getD 0 0 = 0 ∧ bs.getD 1 0 = 20 ∧ (bs.drop 2).length = 20) := by
      intro hcontra
      exact h0 hcontra.1
    unfold btcDecode btcTry
    rw [if_neg h20, if_pos hlen, if_neg hcond]
    unfold p2pkhFromHash
    rw [if_neg h20]

def segwitSample : List Nat := 0 :: 20 :: List.replicate 20 7

/-- C6 witness: a concrete 22-byte buffer with version byte 0 and length
byte 20 decodes to the segwit address of its last 20 bytes. -/
theorem btc22ByteDecodeWitness :
    bytesToAddress (hex0x segwitSample) ("btc") = segwitV0Address (segwitSample.drop 2) :=
  (btc22ByteDecode segwitSample (by decide) (by decide)).1 (by decide)

/-! ## Claim C7 -/

/-- C7: for chain code "sol", a 32-byte buffer decodes to its base-58
rendering — a string over the base-58 alphabet, hence containing none of
'0', 'O', 'I', 'l' — with no exception regardless of the byte content, and
a buffer of any other length yields the hex-tagged fallback "sol_<hex>". -/
theorem solDecodeDispatch (bs : List Nat) (hbytes : ∀ b ∈ bs, b < 256) :
    (bs.length = 32 →
        bytesToAddress (hex0x bs) ("sol") = base58Encode bs ∧
        ∀ c ∈ (base58Encode bs).data,
          c ∈ base58Chars ∧ c ≠ '0' ∧ c ≠ 'O' ∧ c ≠ 'I' ∧ c ≠ 'l') ∧
    (bs.length ≠ 32 →
        bytesToAddress (hex0x bs) ("sol") = String.append ("sol_") (hexOfBytes bs)) := by
  have heval := bytesToAddress_sol_eval bs hbytes
  constructor
  · intro h32
    constructor
    · rw [heval]
      unfold solDecode
      rw [if_pos h32]
      rfl
    · intro c hc
      have hmem := base58Encode_mem_alphabet bs c hc
      exact ⟨hmem, base58Chars_no_confusables c hmem⟩
  · intro hne
    rw [heval]
    unfold solDecode
    rw [if_neg hne]

def solSample : List Nat := List.replicate 31 0 ++ [1]

/-- C7 witness: a concrete 32-byte buffer decodes to its base-58 string. -/
theorem solDecodeDispatchWitness :
    bytesToAddress (hex0x solSample) ("sol") = base58Encode solSample :=
  ((solDecodeDispatch solSample (by decide)).1 (by decide)).1

/-! ## Claim C10 -/

theorem strMk_append_data (l : List Char) (s : String) :
    String.mk (l ++ s.data) = String.mk l ++ s := by
  cases s
  rfl

/-- C10: the target extracted after the last ':' is never validated — for
every input "<name>.eth:<t>" (with t colon-free, as the last-colon split
requires for this decomposition) where t is neither a text-record alias,
nor "eth", nor a key of the coin-type table — the empty target included —
parsing succeeds with target t, the query routes through the multi-chain
path, the coin type defaults to 60, and that path performs exactly the
ordinary Ethereum address lookup rather than rejecting the input. -/
theorem unvalidatedTargetDefaultsToEthLookup (name t : String)
    (hcol : ∀ c ∈ t.data, c ≠ ':')
    (htr : t ∉ textRecordTypes)
    (hne : t ≠ "eth")
    (hkey : t ∉ coinTypeMap.map Prod.fst) :
    parseDomainWithChain (name ++ ".eth:" ++ t) = Except.ok ⟨name ++ ".eth", t⟩ ∧
    getCoinType t = 60 ∧
    (∀ (f : String → String → String) (env : Env) (network : String),
        network ∈ networkNames → env.providerUp network = true →
        resolveNameWith f env (name ++ ".eth:" ++ t) network
          = resolveMultiChainTLDWith f env (name ++ ".eth") t) ∧
    (∀ (f : String → String → String) (env : Env),
        resolveMultiChainTLDWith f env (name ++ ".eth") t
          = resolveEthDomain env (name ++ ".eth")) := by
  have hct : getCoinType t = 60 := by
    unfold getCoinType
    rw [lookup_eq_none_of_not_mem coinTypeMap t hkey]
    rfl
  have hlit : String.data (".eth:") = '.' :: 'e' :: 't' :: 'h' :: ':' :: [] := rfl
  have hlit2 : ethSuffix = '.' :: 'e' :: 't' :: 'h' :: [] := rfl
  have hdata : (name ++ ".eth:" ++ t).data = (name.data ++ ethSuffix) ++ ':' :: t.data := by
    rw [strData_append, strData_append, hlit, hlit2]
    simp
  have e1 : String.mk (name.data ++ ethSuffix) = name ++ ".eth" := by
    have h := strMk_append_data name.data (".eth")
    rw [string_mk_data] at h
    exact h
  have hparse : parseDomainWithChain (name ++ ".eth:" ++ t) = Except.ok ⟨name ++ ".eth", t⟩ := by
    unfold parseDomainWithChain
    rw [hdata, splitAtLastColon_append _ _ hcol]
    simp [hasSuffix_append_self, e1, string_mk_data]
  refine ⟨hparse, hct, ?_, ?_⟩
  · intro f env network hn hu
    simp [resolveNameWith, resolveNameCore, hn, hu, hparse, htr, hne]
  · intro f env
    simp only [resolveMultiChainTLDWith, resolveEthDomain]
    simp [hct]

/-- C10 witness: the empty target of "alice.eth:" is accepted and defaults
to coin type 60. -/
theorem unvalidatedTargetWitness :
    parseDomainWithChain ("alice" ++ ".eth:" ++ "") = Except.ok ⟨"alice" ++ ".eth", ""⟩ ∧
      getCoinType ("") = 60 :=
  ⟨(unvalidatedTargetDefaultsToEthLookup ("alice") ("") (by decide) (by decide) (by decide)
      (by decide)).1,
   (unvalidatedTargetDefaultsToEthLookup ("alice") ("") (by decide) (by decide) (by decide)
      (by decide)).2.1⟩
